import Mathlib

/-!
Verification of the client-side authentication session manager and HTTP
request-resilience coordinator of the mmm-machine frontend.

Shallow embedding of:
  * `frontend/src/store/auth.ts` (the zustand auth store: `isTokenExpired`,
    `setAuth`, `logout`, `checkTokenExpiry`),
  * `frontend/src/services/api.ts` (the axios response interceptor that
    serialises token renewal: module-level `isRefreshing` flag,
    `pendingRequests` array, `processQueue`, and the 401 handler).

Browser builtins (`atob`, `JSON.parse`, JS member access/truthiness) are
modelled explicitly below; `JSON.parse` is modelled on the fragment of JSON
exercised by JWT payloads (integer numbers, escape-free strings); values
outside the fragment are parse failures.
-/

namespace MMM

/-! ## JSON values and a model of `JSON.parse` -/

/-- JSON values (fragment: numbers are integers). -/
inductive Json where
  | null : Json
  | bool (b : Bool) : Json
  | num (n : Int) : Json
  | str (s : String) : Json
  | arr (xs : List Json) : Json
  | obj (fields : List (String × Json)) : Json

/-- JSON insignificant whitespace. -/
def isWsChar (c : Char) : Bool :=
  c = ' ' ∨ c = '\t' ∨ c = '\n' ∨ c = '\r'

/-- Drop leading JSON whitespace. -/
def skipWs (cs : List Char) : List Char :=
  cs.dropWhile isWsChar

/-- Decimal digits to a natural number. -/
def digitsToNat (ds : List Char) : Nat :=
  ds.foldl (fun acc c => acc * 10 + (c.toNat - 48)) 0

/-- Leading decimal digit run (at least one digit required). -/
def takeDigits (cs : List Char) : Option (Nat × List Char) :=
  let ds := cs.takeWhile Char.isDigit
  if ds.isEmpty then none else some (digitsToNat ds, cs.drop ds.length)

/-- After an integer literal, a fraction or exponent part puts the number
outside the modelled fragment. -/
def numCont (cs : List Char) : Bool :=
  match cs with
  | c :: _ => c = '.' ∨ c = 'e' ∨ c = 'E' ∨ c.isDigit
  | [] => false

/-- Unsigned JSON integer literal: `0` or a nonzero-leading digit run. -/
def parseUInt (cs : List Char) : Option (Nat × List Char) :=
  match cs with
  | '0' :: rest => if numCont rest then none else some (0, rest)
  | c :: _ =>
    if c.isDigit then
      match takeDigits cs with
      | some (n, rest) => if numCont rest then none else some (n, rest)
      | none => none
    else none
  | [] => none

/-- JSON integer literal with optional minus sign. -/
def parseInt (cs : List Char) : Option (Int × List Char) :=
  match cs with
  | '-' :: rest => (parseUInt rest).map (fun p => (-(p.1 : Int), p.2))
  | _ => (parseUInt cs).map (fun p => ((p.1 : Int), p.2))

/-- Characters of a string literal after the opening quote (fragment:
no escape sequences, no control characters). -/
def strChars : List Char → Option (List Char × List Char)
  | [] => none
  | '"' :: rest => some ([], rest)
  | '\\' :: _ => none
  | c :: rest =>
    if c.toNat < 32 then none
    else (strChars rest).map (fun p => (c :: p.1, p.2))

/-- Parser mode: a single value, array elements, or object members. -/
inductive PMode where
  | value
  | elems
  | members

/-- Parser intermediate result, one constructor per mode. -/
inductive PRes where
  | v (j : Json)
  | es (xs : List Json)
  | ms (fs : List (String × Json))

/-- Fuel-indexed JSON parser covering values, comma-separated array
elements (up to `]`) and object members (up to the closing brace); a
single function so that recursion is structural on the fuel. -/
def parseJ : Nat → PMode → List Char → Option (PRes × List Char)
  | 0, _, _ => none
  | fuel + 1, .value, cs =>
    match skipWs cs with
    | 'n' :: 'u' :: 'l' :: 'l' :: r => some (.v .null, r)
    | 't' :: 'r' :: 'u' :: 'e' :: r => some (.v (.bool true), r)
    | 'f' :: 'a' :: 'l' :: 's' :: 'e' :: r => some (.v (.bool false), r)
    | '"' :: r => (strChars r).map (fun p => (.v (.str (String.mk p.1)), p.2))
    | '[' :: r =>
      match skipWs r with
      | ']' :: r1 => some (.v (.arr []), r1)
      | _ =>
        match parseJ fuel .elems r with
        | some (.es xs, r1) => some (.v (.arr xs), r1)
        | _ => none
    | '{' :: r =>
      match skipWs r with
      | '}' :: r1 => some (.v (.obj []), r1)
      | _ =>
        match parseJ fuel .members r with
        | some (.ms fs, r1) => some (.v (.obj fs), r1)
        | _ => none
    | cs1 => (parseInt cs1).map (fun p => (.v (.num p.1), p.2))
  | fuel + 1, .elems, cs =>
    match parseJ fuel .value cs with
    | some (.v j, r) =>
      match skipWs r with
      | ',' :: r1 =>
        match parseJ fuel .elems r1 with
        | some (.es xs, r2) => some (.es (j :: xs), r2)
        | _ => none
      | ']' :: r1 => some (.es [j], r1)
      | _ => none
    | _ => none
  | fuel + 1, .members, cs =>
    match skipWs cs with
    | '"' :: r =>
      match strChars r with
      | some (k, r1) =>
        match skipWs r1 with
        | ':' :: r2 =>
          match parseJ fuel .value r2 with
          | some (.v j, r3) =>
            match skipWs r3 with
            | ',' :: r4 =>
              match parseJ fuel .members r4 with
              | some (.ms fs, r5) => some (.ms ((String.mk k, j) :: fs), r5)
              | _ => none
            | '}' :: r4 => some (.ms [(String.mk k, j)], r4)
            | _ => none
          | _ => none
        | _ => none
      | none => none
    | _ => none

/-- Model of `JSON.parse`: parse one value, allow trailing whitespace only.
Failure (`none`) models a thrown `SyntaxError`. -/
def jsonParse (s : String) : Option Json :=
  match parseJ (s.data.length + 1) .value s.data with
  | some (.v j, r) => if (skipWs r).isEmpty then some j else none
  | _ => none

/-! ## Models of `atob` and base64url decoding -/

/-- Standard base64 alphabet value of a character (`atob` accepts only this
alphabet; base64url's `-` and `_` are rejected). -/
def b64Val (c : Char) : Option Nat :=
  if 'A' ≤ c ∧ c ≤ 'Z' then some (c.toNat - 65)
  else if 'a' ≤ c ∧ c ≤ 'z' then some (c.toNat - 97 + 26)
  else if '0' ≤ c ∧ c ≤ '9' then some (c.toNat - 48 + 52)
  else if c = '+' then some 62
  else if c = '/' then some 63
  else none

/-- Base64url alphabet value of a character. -/
def b64urlVal (c : Char) : Option Nat :=
  if c = '-' then some 62
  else if c = '_' then some 63
  else if c = '+' ∨ c = '/' then none
  else b64Val c

/-- Decode a base64 character stream in groups of four sextets; a leftover
group of two or three characters yields one or two bytes, a leftover single
character is an error (WHATWG forgiving-base64). -/
def b64Quads (val : Char → Option Nat) : List Char → Option (List Nat)
  | [] => some []
  | [c1, c2] => do
    let v1 ← val c1
    let v2 ← val c2
    pure [v1 * 4 + v2 / 16]
  | [c1, c2, c3] => do
    let v1 ← val c1
    let v2 ← val c2
    let v3 ← val c3
    pure [v1 * 4 + v2 / 16, v2 % 16 * 16 + v3 / 4]
  | c1 :: c2 :: c3 :: c4 :: rest => do
    let v1 ← val c1
    let v2 ← val c2
    let v3 ← val c3
    let v4 ← val c4
    let tail ← b64Quads val rest
    pure ((v1 * 4 + v2 / 16) :: (v2 % 16 * 16 + v3 / 4) :: (v3 % 4 * 64 + v4) :: tail)
  | [_] => none

/-- Strip up to two trailing padding characters. -/
def dropPad (cs : List Char) : List Char :=
  match cs.reverse with
  | '=' :: '=' :: rest => rest.reverse
  | '=' :: rest => rest.reverse
  | _ => cs

/-- ASCII whitespace stripped by forgiving-base64. -/
def isB64Ws (c : Char) : Bool :=
  c = ' ' ∨ c = '\t' ∨ c = '\n' ∨ c = '\r' ∨ c.toNat = 12

/-- Model of the browser `atob` builtin (WHATWG forgiving-base64 decode):
strip ASCII whitespace, strip padding when the length is a multiple of four,
reject a leftover single character and any character outside the standard
base64 alphabet; decode bytes to a binary string. `none` models a thrown
`InvalidCharacterError`. -/
def atob (s : String) : Option String :=
  let cs := s.data.filter (fun c => ¬ isB64Ws c)
  let cs := if cs.length % 4 = 0 then dropPad cs else cs
  if cs.length % 4 = 1 then none
  else (b64Quads b64Val cs).map (fun bytes => String.mk (bytes.map Char.ofNat))

/-- Base64url decoding (RFC 7515 style: `-`/`_` alphabet, no padding). -/
def b64urlDecode (s : String) : Option String :=
  if s.data.length % 4 = 1 then none
  else (b64Quads b64urlVal s.data).map (fun bytes => String.mk (bytes.map Char.ofNat))

/-! ## JS value semantics used by the store -/

/-- Last-wins field lookup on an object's member list (`JSON.parse` keeps
the last duplicate key). -/
def lookupField (fs : List (String × Json)) (k : String) : Option Json :=
  fs.foldl (fun acc p => if p.1 = k then some p.2 else acc) none

/-- JS member access `payload.exp` on a parsed JSON value: the outer `none`
models the `TypeError` thrown when the base value is `null`; `some none`
models `undefined` (absent field, or a primitive/array base). -/
def jsGetField (j : Json) (k : String) : Option (Option Json) :=
  match j with
  | .null => none
  | .obj fs => some (lookupField fs k)
  | _ => some none

/-- JS truthiness of a JSON value. -/
def jsTruthy : Json → Bool
  | .null => false
  | .bool b => b
  | .num n => n != 0
  | .str s => !s.data.isEmpty
  | .arr _ => true
  | .obj _ => true

/-- `Number(string)` on the modelled fragment: trimmed empty string is `0`,
an optionally signed decimal digit run is its value, anything else is `NaN`
(`none`). -/
def strToNumber (s : String) : Option Int :=
  let t := ((s.data.dropWhile isWsChar).reverse.dropWhile isWsChar).reverse
  match t with
  | [] => some 0
  | '-' :: ds => if !ds.isEmpty ∧ ds.all Char.isDigit then some (-(digitsToNat ds : Int)) else none
  | '+' :: ds => if !ds.isEmpty ∧ ds.all Char.isDigit then some (digitsToNat ds) else none
  | ds => if ds.all Char.isDigit then some (digitsToNat ds) else none

/-- JS numeric coercion of a JSON value, `none` for `NaN` (fragment:
array/object-to-primitive coercion is not modelled and yields `NaN`; JWT
payloads never exercise it). -/
def jsToNumber : Json → Option Int
  | .null => some 0
  | .bool b => some (if b then 1 else 0)
  | .num n => some n
  | .str s => strToNumber s
  | .arr _ => none
  | .obj _ => none

/-! ## `isTokenExpired` (auth store) -/

/-- Model of JS `token.split(".")` on the character list of the token. -/
def splitOnDot : List Char → List (List Char)
  | [] => [[]]
  | '.' :: rest => [] :: splitOnDot rest
  | c :: rest =>
    match splitOnDot rest with
    | s :: ss => (c :: s) :: ss
    | [] => [[c]]

/-- Model of `isTokenExpired` from `store/auth.ts`, with `Date.now()` passed
in as `nowMs`:

```js
function isTokenExpired(token) {
  try {
    const parts = token.split(".");
    if (!parts[1]) return true;
    const payload = JSON.parse(atob(parts[1]));
    const exp = payload.exp;
    if (!exp) return false;
    return Date.now() >= (exp - 30) * 1000;
  } catch { return true; }
}
```

Every thrown exception (bad base64, bad JSON, member access on `null`) is
caught and yields `true`; a comparison against a `NaN` subtraction is
`false`. -/
def isTokenExpired (nowMs : Int) (token : String) : Bool :=
  match (splitOnDot token.data)[1]? with
  | none => true
  | some seg =>
    if seg.isEmpty then true
    else
      match atob (String.mk seg) with
      | none => true
      | some payloadStr =>
        match jsonParse payloadStr with
        | none => true
        | some payload =>
          match jsGetField payload "exp" with
          | none => true
          | some expField =>
            match expField with
            | none => false
            | some expVal =>
              if !jsTruthy expVal then false
              else
                match jsToNumber expVal with
                | none => false
                | some n => nowMs ≥ (n - 30) * 1000

/-- The decode pipeline of `isTokenExpired` up to the parsed payload: the
middle dot-separated segment, decoded with `atob` and parsed as JSON;
`none` when the segment is missing or empty or either decoding step
throws. -/
def payloadOfToken (token : String) : Option Json :=
  match (splitOnDot token.data)[1]? with
  | none => none
  | some seg => if seg.isEmpty then none else (atob (String.mk seg)).bind jsonParse

/-! ## The auth session store -/

/-- The session record held by the zustand store (`user` kept opaque). -/
structure AuthState where
  user : Option String
  accessToken : Option String
  refreshToken : Option String
  isAuthenticated : Bool
deriving DecidableEq

/-- The initial (logged-out) session. -/
def emptyAuth : AuthState :=
  { user := none, accessToken := none, refreshToken := none, isAuthenticated := false }

/-- `setAuth(user, accessToken, refreshToken)`: one `set` call replacing all
four fields. -/
def setAuth (u a r : String) : AuthState :=
  { user := some u, accessToken := some a, refreshToken := some r, isAuthenticated := true }

/-- `logout()`: one `set` call resetting all four fields. -/
def logout (_s : AuthState) : AuthState := emptyAuth

/-- JS falsiness of an optional string (`null`/`undefined` and `""`). -/
def jsStrFalsy : Option String → Bool
  | none => true
  | some s => s.data.isEmpty

/-- Model of `checkTokenExpiry` from `store/auth.ts`:

```js
checkTokenExpiry: () => {
  const { accessToken, refreshToken } = get();
  if (!accessToken || !refreshToken) return;
  if (isTokenExpired(refreshToken)) { get().logout(); return; }
}
``` -/
def checkTokenExpiry (nowMs : Int) (s : AuthState) : AuthState :=
  if jsStrFalsy s.accessToken ∨ jsStrFalsy s.refreshToken then s
  else if isTokenExpired nowMs (s.refreshToken.getD "") then logout s
  else s

/-- The spec's description of `checkExpiry()` (claim-side definition for the
refinement comparison): read the refresh token; if absent or expired, log
out; the access token is not inspected. -/
def specCheckExpiry (nowMs : Int) (s : AuthState) : AuthState :=
  match s.refreshToken with
  | none => emptyAuth
  | some rt => if isTokenExpired nowMs rt then emptyAuth else s

/-- Store operations reachable through the store's public interface. -/
inductive StoreOp where
  | setAuthOp (u a r : String)
  | logoutOp
  | checkExpiryOp (nowMs : Int)

/-- Apply one store operation. -/
def applyStoreOp (s : AuthState) : StoreOp → AuthState
  | .setAuthOp u a r => setAuth u a r
  | .logoutOp => logout s
  | .checkExpiryOp now => checkTokenExpiry now s

/-- Run a list of store operations from a starting state. -/
def runStoreOps (ops : List StoreOp) (s : AuthState) : AuthState :=
  ops.foldl applyStoreOp s

/-- Session store invariant: the state is wholly empty or wholly populated
by one `setAuth` call. -/
def SessionInv (s : AuthState) : Prop :=
  s = emptyAuth ∨ ∃ u a r, s = setAuth u a r

/-! ## The axios response interceptor (Refresh Coordinator) -/

/-- `p` begins the list `s`. -/
def leadsWith : List Char → List Char → Bool
  | [], _ => true
  | _ :: _, [] => false
  | p :: ps, c :: cs => p = c && leadsWith ps cs

/-- `pat` occurs somewhere in the list. -/
def containsSeq (pat : List Char) : List Char → Bool
  | [] => leadsWith pat []
  | c :: cs => leadsWith pat (c :: cs) || containsSeq pat cs

/-- Model of JS `String.prototype.includes`. -/
def strIncludes (s pat : String) : Bool :=
  containsSeq pat.data s.data

/-- The interceptor's URL exemption:
`url.includes("/auth/refresh") || url.includes("/auth/login")`. -/
def isExemptUrl (u : String) : Bool :=
  strIncludes u "/auth/refresh" || strIncludes u "/auth/login"

/-- Error surfaced to a request's caller. -/
inductive ErrKind where
  | passthrough
  | noRefreshToken
  | renewalFailed
deriving DecidableEq

/-- Where a request stands: HTTP call outstanding, suspended as a pending
waiter, being the trigger that awaits the `/auth/refresh` call, or settled. -/
inductive Phase where
  | inFlight
  | queued
  | awaitingRefresh
  | doneOk
  | doneErr (e : ErrKind)
deriving DecidableEq

/-- One logical request: its URL, its `_retry` mark, its current phase, how
many times its HTTP call has been started, and the bearer token attached to
the latest dispatch. -/
structure Req where
  url : String
  retried : Bool
  phase : Phase
  dispatches : Nat
  authz : Option String
deriving DecidableEq

instance : Inhabited Req :=
  ⟨{ url := "", retried := false, phase := .doneOk, dispatches := 0, authz := none }⟩

/-- The whole client state: the module-level `isRefreshing` flag and
`pendingRequests` array, the auth store, the count of `/auth/refresh`
network calls issued, the index of the triggering request while its refresh
call is outstanding, and all requests. -/
structure Sys where
  isRefreshing : Bool
  pendingRequests : List Nat
  store : AuthState
  refreshCalls : Nat
  refreshing : Option Nat
  reqs : List Req
deriving DecidableEq

/-- Request `i`, with a default out of range. -/
def getReq (rs : List Req) (i : Nat) : Req :=
  rs.getD i default

/-- Replace request `i` by `f` applied to it. -/
def modifyReq (f : Req → Req) : Nat → List Req → List Req
  | _, [] => []
  | 0, r :: rs => f r :: rs
  | i + 1, r :: rs => r :: modifyReq f i rs

/-- Apply `f` to every request listed in `pend`. -/
def modifyAll (f : Req → Req) (pend : List Nat) (rs : List Req) : List Req :=
  pend.foldl (fun acc j => modifyReq f j acc) rs

/-- A pending waiter resolved with token `tok`: its continuation sets the
bearer header to `tok` and re-dispatches the original request. -/
def resolveWaiter (tok : String) (r : Req) : Req :=
  { r with phase := .inFlight, authz := some tok, dispatches := r.dispatches + 1 }

/-- A request settled with error `e`. -/
def settleErr (e : ErrKind) (r : Req) : Req :=
  { r with phase := .doneErr e }

/-- Mark a request as an enqueued pending waiter. -/
def markQueued (r : Req) : Req :=
  { r with phase := .queued }

/-- The response interceptor's 401 branch for request `i`, run as one
synchronous block (the event loop admits no interleaving before the first
`await`):

```js
if (error.response?.status === 401 && !originalRequest._retry &&
    !originalRequest.url?.includes("/auth/refresh") &&
    !originalRequest.url?.includes("/auth/login")) {
  if (isRefreshing) {
    return new Promise((resolve, reject) => {
      pendingRequests.push({ resolve, reject });
    }).then((token) => { ...; return api(originalRequest); });
  }
  originalRequest._retry = true;
  isRefreshing = true;
  try {
    const refreshToken = useAuthStore.getState().refreshToken;
    if (!refreshToken) throw new Error("No refresh token");
    ...await api.post("/auth/refresh", ...)...
  } catch (refreshError) {
    processQueue(refreshError, null);
    useAuthStore.getState().logout();
    return Promise.reject(refreshError);
  } finally { isRefreshing = false; }
}
return Promise.reject(error);
```

When a refresh token is present the block suspends at the `await`, leaving
`isRefreshing = true` and the refresh call outstanding (`refreshing`,
`refreshCalls` incremented); the `catch`/`finally` of that call are the
separate events `refreshOk`/`refreshErr`. -/
def on401 (i : Nat) (s : Sys) : Sys :=
  if i < s.reqs.length ∧ (getReq s.reqs i).phase = .inFlight then
    if (getReq s.reqs i).retried || isExemptUrl (getReq s.reqs i).url then
      { s with reqs := modifyReq (settleErr .passthrough) i s.reqs }
    else if s.isRefreshing then
      { s with reqs := modifyReq markQueued i s.reqs,
               pendingRequests := s.pendingRequests ++ [i] }
    else if jsStrFalsy s.store.refreshToken then
      { s with reqs := modifyReq (fun q => { q with retried := true, phase := .doneErr .noRefreshToken })
                 i (modifyAll (settleErr .noRefreshToken) s.pendingRequests s.reqs),
               pendingRequests := [],
               store := emptyAuth,
               isRefreshing := false,
               refreshing := none }
    else
      { s with reqs := modifyReq (fun q => { q with retried := true, phase := .awaitingRefresh }) i s.reqs,
               isRefreshing := true,
               refreshing := some i,
               refreshCalls := s.refreshCalls + 1 }
  else s

/-- The `/auth/refresh` call of trigger `t` succeeds with a new token set:
`setAuth` stores all tokens, `processQueue(null, access_token)` resolves
every pending waiter with the new access token (each re-dispatches its
original request), the trigger re-dispatches its own request, and `finally`
clears `isRefreshing` — all in the same synchronous block. -/
def onRefreshOk (u a r : String) (s : Sys) : Sys :=
  match s.refreshing with
  | none => s
  | some t =>
    { s with store := setAuth u a r,
             reqs := modifyReq (resolveWaiter a) t (modifyAll (resolveWaiter a) s.pendingRequests s.reqs),
             pendingRequests := [],
             isRefreshing := false,
             refreshing := none }

/-- The `/auth/refresh` call of trigger `t` fails:
`processQueue(refreshError, null)` rejects every pending waiter, `logout()`
empties the store, the triggering caller is rejected, and `finally` clears
`isRefreshing`. -/
def onRefreshErr (s : Sys) : Sys :=
  match s.refreshing with
  | none => s
  | some t =>
    { s with store := emptyAuth,
             reqs := modifyReq (settleErr .renewalFailed) t
                       (modifyAll (settleErr .renewalFailed) s.pendingRequests s.reqs),
             pendingRequests := [],
             isRefreshing := false,
             refreshing := none }

/-- A request's HTTP call completes with a 2xx response. -/
def on200 (i : Nat) (s : Sys) : Sys :=
  if i < s.reqs.length ∧ (getReq s.reqs i).phase = .inFlight then
    { s with reqs := modifyReq (fun q => { q with phase := .doneOk }) i s.reqs }
  else s

/-- A request's HTTP call completes with a non-401 error: forwarded
untouched. -/
def onErrOther (i : Nat) (s : Sys) : Sys :=
  if i < s.reqs.length ∧ (getReq s.reqs i).phase = .inFlight then
    { s with reqs := modifyReq (settleErr .passthrough) i s.reqs }
  else s

/-- Scheduler events: HTTP completions arrive in arbitrary order; the
outstanding refresh call settles with success or failure. -/
inductive Ev where
  | http200 (i : Nat)
  | httpErrOther (i : Nat)
  | http401 (i : Nat)
  | refreshOk (u a r : String)
  | refreshErr
deriving DecidableEq

/-- One event-loop turn. -/
def stepEv : Ev → Sys → Sys
  | .http200 i, s => on200 i s
  | .httpErrOther i, s => onErrOther i s
  | .http401 i, s => on401 i s
  | .refreshOk u a r, s => onRefreshOk u a r s
  | .refreshErr, s => onRefreshErr s

/-- Run a sequence of events. -/
def run (evs : List Ev) (s : Sys) : Sys :=
  evs.foldl (fun acc e => stepEv e acc) s

/-- Decidable store-side invariant: empty or wholly populated. -/
def StoreOK (st : AuthState) : Prop :=
  st = emptyAuth ∨
    (st.user ≠ none ∧ st.accessToken ≠ none ∧ st.refreshToken ≠ none ∧ st.isAuthenticated = true)

/-- Coordinator well-formedness, preserved by every event:
the `isRefreshing` flag tracks the outstanding refresh call; the waiter
queue is non-empty only while refreshing; queued indices are valid,
distinct, and in phase `queued`; the trigger is valid, in phase
`awaitingRefresh`, and not its own waiter; the store satisfies its
invariant. -/
def WF (s : Sys) : Prop :=
  s.isRefreshing = s.refreshing.isSome ∧
  (s.pendingRequests = [] ∨ s.isRefreshing = true) ∧
  (∀ j ∈ s.pendingRequests, j < s.reqs.length ∧ (getReq s.reqs j).phase = .queued) ∧
  (∀ t ∈ s.refreshing.toList,
    t < s.reqs.length ∧ (getReq s.reqs t).phase = .awaitingRefresh ∧ t ∉ s.pendingRequests) ∧
  s.pendingRequests.Nodup ∧
  StoreOK s.store

instance (s : Sys) : Decidable (WF s) := by
  unfold WF StoreOK
  infer_instance

/-! ## Basic lemmas about request-list updates -/

theorem length_modifyReq (f : Req → Req) : ∀ (i : Nat) (rs : List Req),
    (modifyReq f i rs).length = rs.length := by
  intro i rs
  induction rs generalizing i with
  | nil => cases i <;> rfl
  | cons r rs ih =>
    cases i with
    | zero => rfl
    | succ n => simpa [modifyReq] using ih n

theorem getReq_modifyReq_self (f : Req → Req) : ∀ (i : Nat) (rs : List Req), i < rs.length →
    getReq (modifyReq f i rs) i = f (getReq rs i) := by
  intro i rs
  induction rs generalizing i with
  | nil => intro h; simp at h
  | cons r rs ih =>
    cases i with
    | zero => intro _; rfl
    | succ n =>
      intro h
      simpa [modifyReq, getReq] using ih n (by simpa using Nat.lt_of_succ_lt_succ h)

theorem getReq_modifyReq_ne (f : Req → Req) : ∀ (i j : Nat) (rs : List Req), j ≠ i →
    getReq (modifyReq f i rs) j = getReq rs j := by
  intro i j rs
  induction rs generalizing i j with
  | nil => intro _; cases i <;> rfl
  | cons r rs ih =>
    intro hne
    cases i with
    | zero =>
      cases j with
      | zero => exact absurd rfl hne
      | succ m => rfl
    | succ n =>
      cases j with
      | zero => rfl
      | succ m =>
        simpa [modifyReq, getReq] using ih n m (fun h => hne (by rw [h]))

theorem length_modifyAll (f : Req → Req) : ∀ (pend : List Nat) (rs : List Req),
    (modifyAll f pend rs).length = rs.length := by
  intro pend
  induction pend with
  | nil => intro rs; rfl
  | cons j pend ih =>
    intro rs
    show (modifyAll f pend (modifyReq f j rs)).length = rs.length
    rw [ih, length_modifyReq]

theorem getReq_modifyAll_not_mem (f : Req → Req) : ∀ (pend : List Nat) (rs : List Req) (j : Nat),
    j ∉ pend → getReq (modifyAll f pend rs) j = getReq rs j := by
  intro pend
  induction pend with
  | nil => intro rs j _; rfl
  | cons k pend ih =>
    intro rs j hj
    have hjk : j ≠ k := fun h => hj (h ▸ List.mem_cons_self k pend)
    have hjp : j ∉ pend := fun h => hj (List.mem_cons_of_mem k h)
    show getReq (modifyAll f pend (modifyReq f k rs)) j = getReq rs j
    rw [ih _ _ hjp, getReq_modifyReq_ne f k j rs hjk]

theorem getReq_modifyAll_mem (f : Req → Req) : ∀ (pend : List Nat) (rs : List Req) (j : Nat),
    j ∈ pend → pend.Nodup → j < rs.length →
    getReq (modifyAll f pend rs) j = f (getReq rs j) := by
  intro pend
  induction pend with
  | nil => intro rs j hj; simp at hj
  | cons k pend ih =>
    intro rs j hj hnd hlen
    show getReq (modifyAll f pend (modifyReq f k rs)) j = f (getReq rs j)
    rcases List.mem_cons.mp hj with hjk | hjp
    · subst hjk
      have hnotin : j ∉ pend := (List.nodup_cons.mp hnd).1
      rw [getReq_modifyAll_not_mem f pend _ j hnotin,
        getReq_modifyReq_self f j rs hlen]
    · have hknotin : k ∉ pend := (List.nodup_cons.mp hnd).1
      have hjk : j ≠ k := fun h => hknotin (h ▸ hjp)
      rw [ih _ _ hjp (List.nodup_cons.mp hnd).2 (by rw [length_modifyReq]; exact hlen),
        getReq_modifyReq_ne f k j rs hjk]

/-! ## Preservation of the coordinator invariant -/

theorem wf_modify_inflight (s : Sys) (i : Nat) (f : Req → Req) (h : WF s)
    (hph : (getReq s.reqs i).phase = .inFlight) :
    WF { s with reqs := modifyReq f i s.reqs } := by
  obtain ⟨h1, h2, h3, h4, h5, h6⟩ := h
  refine ⟨h1, h2, ?_, ?_, h5, h6⟩
  · intro j hj
    obtain ⟨hjl, hjq⟩ := h3 j hj
    have hji : j ≠ i := by
      intro hEq
      rw [hEq, hph] at hjq
      exact Phase.noConfusion hjq
    exact ⟨by simpa [length_modifyReq] using hjl,
      by rw [getReq_modifyReq_ne f i j s.reqs hji]; exact hjq⟩
  · intro t ht
    obtain ⟨htl, htq, htp⟩ := h4 t ht
    have hti : t ≠ i := by
      intro hEq
      rw [hEq, hph] at htq
      exact Phase.noConfusion htq
    exact ⟨by simpa [length_modifyReq] using htl,
      by rw [getReq_modifyReq_ne f i t s.reqs hti]; exact htq, htp⟩

theorem wf_step (e : Ev) (s : Sys) (h : WF s) : WF (stepEv e s) := by
  obtain ⟨h1, h2, h3, h4, h5, h6⟩ := h
  cases e with
  | http200 i =>
    show WF (on200 i s)
    unfold on200
    split
    · next hg => exact wf_modify_inflight s i _ ⟨h1, h2, h3, h4, h5, h6⟩ hg.2
    · exact ⟨h1, h2, h3, h4, h5, h6⟩
  | httpErrOther i =>
    show WF (onErrOther i s)
    unfold onErrOther
    split
    · next hg => exact wf_modify_inflight s i _ ⟨h1, h2, h3, h4, h5, h6⟩ hg.2
    · exact ⟨h1, h2, h3, h4, h5, h6⟩
  | refreshOk u a r =>
    show WF (onRefreshOk u a r s)
    unfold onRefreshOk
    cases s.refreshing with
    | none => exact ⟨h1, h2, h3, h4, h5, h6⟩
    | some t =>
      refine ⟨rfl, Or.inl rfl, by simp, by simp, List.nodup_nil, Or.inr ?_⟩
      simp [setAuth]
  | refreshErr =>
    show WF (onRefreshErr s)
    unfold onRefreshErr
    cases s.refreshing with
    | none => exact ⟨h1, h2, h3, h4, h5, h6⟩
    | some t =>
      exact ⟨rfl, Or.inl rfl, by simp, by simp, List.nodup_nil, Or.inl rfl⟩
  | http401 i =>
    show WF (on401 i s)
    unfold on401
    split
    · next hg =>
      split
      · exact wf_modify_inflight s i _ ⟨h1, h2, h3, h4, h5, h6⟩ hg.2
      · split
        · next href =>
          -- enqueue branch
          have hinotin : i ∉ s.pendingRequests := by
            intro hmem
            have := (h3 i hmem).2
            rw [hg.2] at this
            exact Phase.noConfusion this
          refine ⟨h1, Or.inr href, ?_, ?_, ?_, h6⟩
          · intro j hj
            rcases List.mem_append.mp hj with hjo | hji
            · obtain ⟨hjl, hjq⟩ := h3 j hjo
              have hji : j ≠ i := by
                intro hEq
                rw [hEq, hg.2] at hjq
                exact Phase.noConfusion hjq
              exact ⟨by simpa [length_modifyReq] using hjl,
                by rw [getReq_modifyReq_ne _ i j s.reqs hji]; exact hjq⟩
            · have hji2 : j = i := by simpa using hji
              subst hji2
              exact ⟨by simpa [length_modifyReq] using hg.1,
                by rw [getReq_modifyReq_self _ j s.reqs hg.1]; rfl⟩
          · intro t ht
            obtain ⟨htl, htq, htp⟩ := h4 t ht
            have hti : t ≠ i := by
              intro hEq
              rw [hEq, hg.2] at htq
              exact Phase.noConfusion htq
            refine ⟨by simpa [length_modifyReq] using htl,
              by rw [getReq_modifyReq_ne _ i t s.reqs hti]; exact htq, ?_⟩
            intro hmem
            rcases List.mem_append.mp hmem with hm | hm
            · exact htp hm
            · exact hti (by simpa using hm)
          · rw [List.nodup_append]
            refine ⟨h5, List.nodup_singleton i, ?_⟩
            intro a ha hb
            have haeq : a = i := by simpa using hb
            exact hinotin (haeq ▸ ha)
        · next hre hnr =>
          have hpend : s.pendingRequests = [] := by
            rcases h2 with hp | hp
            · exact hp
            · exact absurd hp (by simpa using hnr)
          split
          · -- no refresh token: throw, drain (empty) queue, logout
            exact ⟨rfl, Or.inl rfl, by simp, by simp, List.nodup_nil, Or.inl rfl⟩
          · -- trigger branch: suspend at the await of the refresh call
            refine ⟨rfl, Or.inl hpend, ?_, ?_, hpend ▸ h5, h6⟩
            · intro j hj
              rw [hpend] at hj
              simp at hj
            · intro t ht
              have hti : t = i := by simpa using ht
              subst hti
              refine ⟨by simpa [length_modifyReq] using hg.1, ?_, by rw [hpend]; simp⟩
              rw [getReq_modifyReq_self _ t s.reqs hg.1]
    · exact ⟨h1, h2, h3, h4, h5, h6⟩

/-! ## Execution lemmas: single renewal per burst, queue drain -/

theorem run_cons (e : Ev) (evs : List Ev) (s : Sys) :
    run (e :: evs) s = run evs (stepEv e s) := rfl

theorem run_append (xs ys : List Ev) (s : Sys) :
    run (xs ++ ys) s = run ys (run xs s) := by
  simp [run, List.foldl_append]

/-- First 401 of a burst: the check-and-set happens synchronously, so the
block marks the request retried, flips `isRefreshing`, issues the one
refresh call and suspends. -/
theorem on401_trigger (s : Sys) (i : Nat)
    (hlen : i < s.reqs.length) (hph : (getReq s.reqs i).phase = .inFlight)
    (hret : (getReq s.reqs i).retried = false)
    (hex : isExemptUrl (getReq s.reqs i).url = false)
    (hnr : s.isRefreshing = false)
    (htok : jsStrFalsy s.store.refreshToken = false) :
    on401 i s =
      { s with reqs := modifyReq (fun q => { q with retried := true, phase := .awaitingRefresh }) i s.reqs,
               isRefreshing := true,
               refreshing := some i,
               refreshCalls := s.refreshCalls + 1 } := by
  unfold on401
  rw [if_pos ⟨hlen, hph⟩]
  simp only [hret, hex, hnr, htok, Bool.false_or]
  rfl

/-- A 401 that lands while a renewal is in flight: the request is pushed as
a pending waiter, nothing else changes. -/
theorem on401_enqueue (s : Sys) (i : Nat)
    (hlen : i < s.reqs.length) (hph : (getReq s.reqs i).phase = .inFlight)
    (hret : (getReq s.reqs i).retried = false)
    (hex : isExemptUrl (getReq s.reqs i).url = false)
    (hr : s.isRefreshing = true) :
    on401 i s =
      { s with reqs := modifyReq markQueued i s.reqs,
               pendingRequests := s.pendingRequests ++ [i] } := by
  unfold on401
  rw [if_pos ⟨hlen, hph⟩]
  simp only [hret, hex, hr, Bool.false_or]
  rfl

/-- Every further 401 of the burst is enqueued: folding `http401` events
over distinct in-flight, unretried, non-exempt requests while refreshing
only appends them to the waiter queue and marks them queued. -/
theorem run_enqueue_all (rest : List Nat) : ∀ (s : Sys),
    s.isRefreshing = true →
    (∀ i ∈ rest, i < s.reqs.length ∧ (getReq s.reqs i).phase = .inFlight ∧
      (getReq s.reqs i).retried = false ∧ isExemptUrl (getReq s.reqs i).url = false) →
    rest.Nodup →
    run (rest.map Ev.http401) s =
      { s with reqs := modifyAll markQueued rest s.reqs,
               pendingRequests := s.pendingRequests ++ rest } := by
  induction rest with
  | nil =>
    intro s _ _ _
    simp [run, modifyAll]
  | cons k rest ih =>
    intro s hr hall hnd
    obtain ⟨hkl, hkp, hkr, hke⟩ := hall k (List.mem_cons_self k rest)
    have hknotin : k ∉ rest := (List.nodup_cons.mp hnd).1
    rw [List.map_cons, run_cons]
    show run (rest.map Ev.http401) (on401 k s) = _
    rw [on401_enqueue s k hkl hkp hkr hke hr]
    have hcond : ∀ i ∈ rest, i < (modifyReq markQueued k s.reqs).length ∧
        (getReq (modifyReq markQueued k s.reqs) i).phase = Phase.inFlight ∧
        (getReq (modifyReq markQueued k s.reqs) i).retried = false ∧
        isExemptUrl (getReq (modifyReq markQueued k s.reqs) i).url = false := by
      intro i hi
      have hik : i ≠ k := fun h => hknotin (h ▸ hi)
      obtain ⟨hil, hip, hir, hie⟩ := hall i (List.mem_cons_of_mem k hi)
      rw [length_modifyReq, getReq_modifyReq_ne _ k i s.reqs hik]
      exact ⟨hil, hip, hir, hie⟩
    have hrun := ih ({ s with reqs := modifyReq markQueued k s.reqs, pendingRequests := s.pendingRequests ++ [k] }) hr hcond (List.nodup_cons.mp hnd).2
    rw [hrun]
    simp [modifyAll, List.append_assoc]

/-- Renewal success drains the whole queue in one synchronous block: the
store receives the new tokens, every waiter (and the trigger) is
re-dispatched with the new access token, the queue is empty and the
coordinator is idle again. -/
theorem onRefreshOk_drain (s : Sys) (t : Nat) (u a r : String)
    (hwf : WF s) (ht : s.refreshing = some t) :
    (onRefreshOk u a r s).pendingRequests = [] ∧
    (onRefreshOk u a r s).isRefreshing = false ∧
    (onRefreshOk u a r s).refreshing = none ∧
    (onRefreshOk u a r s).store = setAuth u a r ∧
    (∀ j ∈ s.pendingRequests,
      (getReq (onRefreshOk u a r s).reqs j).phase = .inFlight ∧
      (getReq (onRefreshOk u a r s).reqs j).authz = some a ∧
      (getReq (onRefreshOk u a r s).reqs j).dispatches = (getReq s.reqs j).dispatches + 1) ∧
    (getReq (onRefreshOk u a r s).reqs t).phase = .inFlight ∧
    (getReq (onRefreshOk u a r s).reqs t).authz = some a ∧
    (getReq (onRefreshOk u a r s).reqs t).dispatches = (getReq s.reqs t).dispatches + 1 := by
  obtain ⟨h1, h2, h3, h4, h5, h6⟩ := hwf
  obtain ⟨htl, htq, htp⟩ := h4 t (by rw [ht]; exact List.mem_singleton.mpr rfl)
  have hstep : onRefreshOk u a r s =
      { s with store := setAuth u a r,
               reqs := modifyReq (resolveWaiter a) t (modifyAll (resolveWaiter a) s.pendingRequests s.reqs),
               pendingRequests := [],
               isRefreshing := false,
               refreshing := none } := by
    unfold onRefreshOk
    rw [ht]
  rw [hstep]
  refine ⟨rfl, rfl, rfl, rfl, ?_, ?_⟩
  · intro j hj
    obtain ⟨hjl, hjq⟩ := h3 j hj
    have hjt : j ≠ t := fun h => htp (h ▸ hj)
    rw [getReq_modifyReq_ne _ t j _ hjt,
      getReq_modifyAll_mem _ s.pendingRequests s.reqs j hj h5 hjl]
    exact ⟨rfl, rfl, rfl⟩
  · rw [getReq_modifyReq_self _ t _ (by rw [length_modifyAll]; exact htl),
      getReq_modifyAll_not_mem _ s.pendingRequests s.reqs t htp]
    exact ⟨rfl, rfl, rfl⟩

/-- Renewal failure drains the whole queue in one synchronous block: every
waiter and the trigger are rejected with the failure, `logout()` empties
the store, the queue is empty and the coordinator is idle again. -/
theorem onRefreshErr_drain (s : Sys) (t : Nat)
    (hwf : WF s) (ht : s.refreshing = some t) :
    (onRefreshErr s).pendingRequests = [] ∧
    (onRefreshErr s).isRefreshing = false ∧
    (onRefreshErr s).refreshing = none ∧
    (onRefreshErr s).store = emptyAuth ∧
    (∀ j ∈ s.pendingRequests,
      (getReq (onRefreshErr s).reqs j).phase = .doneErr .renewalFailed) ∧
    (getReq (onRefreshErr s).reqs t).phase = .doneErr .renewalFailed := by
  obtain ⟨h1, h2, h3, h4, h5, h6⟩ := hwf
  obtain ⟨htl, htq, htp⟩ := h4 t (by rw [ht]; exact List.mem_singleton.mpr rfl)
  have hstep : onRefreshErr s =
      { s with store := emptyAuth,
               reqs := modifyReq (settleErr .renewalFailed) t
                 (modifyAll (settleErr .renewalFailed) s.pendingRequests s.reqs),
               pendingRequests := [],
               isRefreshing := false,
               refreshing := none } := by
    unfold onRefreshErr
    rw [ht]
  rw [hstep]
  refine ⟨rfl, rfl, rfl, rfl, ?_, ?_⟩
  · intro j hj
    obtain ⟨hjl, hjq⟩ := h3 j hj
    have hjt : j ≠ t := fun h => htp (h ▸ hj)
    rw [getReq_modifyReq_ne _ t j _ hjt,
      getReq_modifyAll_mem _ s.pendingRequests s.reqs j hj h5 hjl]
    rfl
  · rw [getReq_modifyReq_self _ t _ (by rw [length_modifyAll]; exact htl)]
    rfl

example : isTokenExpired 0 "x" = true := by decide
example : isTokenExpired 0 "a.eyJleHAiOjB9.c" = false := by decide
example : isTokenExpired 0 "a.eyJleHAiOjEwMDB9.c" = false := by decide
example : isTokenExpired 971000 "a.eyJleHAiOjEwMDB9.c" = true := by decide
example : isTokenExpired 969999 "a.eyJleHAiOjEwMDB9.c" = false := by decide
example : jsonParse "true" = some (Json.bool true) := rfl

/-! ## Session store invariant (claims about the auth store) -/

theorem sessionInv_apply (s : AuthState) (op : StoreOp) (h : SessionInv s) :
    SessionInv (applyStoreOp s op) := by
  cases op with
  | setAuthOp u a r => exact Or.inr ⟨u, a, r, rfl⟩
  | logoutOp => exact Or.inl rfl
  | checkExpiryOp now =>
    show SessionInv (checkTokenExpiry now s)
    unfold checkTokenExpiry
    split
    · exact h
    · split
      · exact Or.inl rfl
      · exact h

theorem sessionInv_run (ops : List StoreOp) : ∀ s : AuthState, SessionInv s →
    SessionInv (runStoreOps ops s) := by
  induction ops with
  | nil => intro s h; exact h
  | cons op ops ih =>
    intro s h
    exact ih (applyStoreOp s op) (sessionInv_apply s op h)

theorem sessionInv_auth_iff (s : AuthState) (h : SessionInv s) :
    (s.isAuthenticated = true ↔
      (s.user ≠ none ∧ s.accessToken ≠ none ∧ s.refreshToken ≠ none)) := by
  rcases h with h | ⟨u, a, r, h⟩ <;> subst h
  · simp [emptyAuth]
  · simp [setAuth]

/-- Claim C6: starting from the empty session, every state reachable through
the store operations (`setAuth`, `logout`, `checkTokenExpiry`) satisfies
`isAuthenticated = true` iff the user and both tokens are set; moreover each
reachable state is wholly the empty session or wholly the image of a single
`setAuth` call (each operation replaces all four fields in one atomic `set`),
so no interleaved reader observes a mix of old and new fields. -/
theorem c6_session_store_invariant (ops : List StoreOp) :
    SessionInv (runStoreOps ops emptyAuth) ∧
    ((runStoreOps ops emptyAuth).isAuthenticated = true ↔
      ((runStoreOps ops emptyAuth).user ≠ none ∧
       (runStoreOps ops emptyAuth).accessToken ≠ none ∧
       (runStoreOps ops emptyAuth).refreshToken ≠ none)) := by
  have h := sessionInv_run ops emptyAuth (Or.inl rfl)
  exact ⟨h, sessionInv_auth_iff _ h⟩

/-- Claim C9: `logout` is idempotent — applying it twice equals applying it
once, and applying it to the already-empty session leaves the session
unchanged. -/
theorem c9_logout_idempotent (s : AuthState) :
    logout (logout s) = logout s ∧ logout emptyAuth = emptyAuth :=
  ⟨rfl, rfl⟩

/-- Claim C8 counterexample: at the session `{user: "u", accessToken: "a",
refreshToken: null, isAuthenticated: true}` the refresh token is absent, so
the claim requires `checkTokenExpiry` to log out; the code instead returns
early (it first checks the access token too) and leaves the session — which
is not the empty session — unchanged. -/
theorem c8_counterexample :
    checkTokenExpiry 0 ⟨some "u", some "a", none, true⟩ = ⟨some "u", some "a", none, true⟩ ∧
    specCheckExpiry 0 ⟨some "u", some "a", none, true⟩ = emptyAuth ∧
    (⟨some "u", some "a", none, true⟩ : AuthState) ≠ emptyAuth := by
  refine ⟨rfl, rfl, ?_⟩
  decide

/-- Claim C8 (amended): `checkTokenExpiry` returns the state unchanged
whenever either token is absent (or empty) — it does inspect the access
token — and on states satisfying the store invariant (wholly empty, or
wholly populated with non-empty tokens) its outcome coincides with the
spec's description (log out exactly when the refresh token is absent or
expired, regardless of the access token's value). -/
theorem c8_check_expiry_amended (now : Int) (s : AuthState) :
    ((jsStrFalsy s.accessToken = true ∨ jsStrFalsy s.refreshToken = true) →
      checkTokenExpiry now s = s) ∧
    ((s = emptyAuth ∨
      (s.user ≠ none ∧ jsStrFalsy s.accessToken = false ∧ jsStrFalsy s.refreshToken = false ∧
        s.isAuthenticated = true)) →
      checkTokenExpiry now s = specCheckExpiry now s) := by
  constructor
  · intro h
    unfold checkTokenExpiry
    rcases h with h | h <;> rw [if_pos] <;> simp [h]
  · intro h
    rcases h with h | ⟨hu, ha, hr, hi⟩
    · subst h
      rfl
    · cases hrt : s.refreshToken with
      | none => rw [hrt] at hr; simp [jsStrFalsy] at hr
      | some rt =>
        unfold checkTokenExpiry specCheckExpiry
        rw [hrt]
        rw [if_neg]
        · simp only [Option.getD_some]
          rfl
        · rw [hrt] at hr
          simp [ha, hr]

/-- Claim C8 witness: on the populated session produced by
`setAuth "u" "a" "x"` (whose refresh token `"x"` is malformed, hence
expired), the code's `checkTokenExpiry` coincides with the spec's
`checkExpiry`. -/
theorem c8_check_expiry_amended_witness :
    checkTokenExpiry 0 (setAuth "u" "a" "x") = specCheckExpiry 0 (setAuth "u" "a" "x") :=
  (c8_check_expiry_amended 0 (setAuth "u" "a" "x")).2 (Or.inr (by decide))

/-! ## The expiry prechecker -/

theorem isTokenExpired_eq (now : Int) (token : String) :
    isTokenExpired now token =
      match payloadOfToken token with
      | none => true
      | some payload =>
        match jsGetField payload "exp" with
        | none => true
        | some none => false
        | some (some v) =>
          if !jsTruthy v then false
          else
            match jsToNumber v with
            | none => false
            | some n => decide (now ≥ (n - 30) * 1000) := by
  unfold isTokenExpired payloadOfToken
  cases h1 : (splitOnDot token.data)[1]? with
  | none => rfl
  | some seg =>
    dsimp only
    cases h2 : seg.isEmpty with
    | true => rfl
    | false =>
      cases h3 : atob (String.mk seg) with
      | none => rfl
      | some ps =>
        cases h4 : jsonParse ps with
        | none => simp [h4]
        | some j =>
          cases h5 : jsGetField j "exp" with
          | none => simp [h4, h5]
          | some ef =>
            cases ef with
            | none => simp [h4, h5]
            | some v => simp [h4, h5]

/-- Claim C7 counterexample: for the token whose payload decodes to
`{"exp": 0}` the claim requires `isTokenExpired` to return
`now_ms >= (0 - 30) * 1000`, which at `now_ms = 0` is `true`; the code's
`if (!exp)` treats the falsy value `0` as an absent claim and returns
`false`. -/
theorem c7_counterexample :
    payloadOfToken "a.eyJleHAiOjB9.c" = some (Json.obj [("exp", Json.num 0)]) ∧
    lookupField [("exp", Json.num 0)] "exp" = some (Json.num 0) ∧
    ((0 : Int) ≥ ((0 : Int) - 30) * 1000) ∧
    isTokenExpired 0 "a.eyJleHAiOjB9.c" = false :=
  ⟨rfl, rfl, by decide, rfl⟩

/-- Claim C7 (amended): for every token, `isTokenExpired` returns `true`
when the middle dot-separated segment is missing, empty, or fails base64 or
JSON decoding (fail-closed); when the decoded payload is an object without
an `exp` field, or with the falsy value `exp = 0`, it returns `false`
(treated as non-expiring); and when the payload carries a nonzero integer
`exp` it returns exactly `now_ms >= (exp - 30) * 1000` — expiry with the
30-second safety buffer. -/
theorem c7_expiry_precheck_amended (now : Int) (token : String) :
    (payloadOfToken token = none → isTokenExpired now token = true) ∧
    (∀ fs, payloadOfToken token = some (Json.obj fs) → lookupField fs "exp" = none →
      isTokenExpired now token = false) ∧
    (∀ fs, payloadOfToken token = some (Json.obj fs) → lookupField fs "exp" = some (Json.num 0) →
      isTokenExpired now token = false) ∧
    (∀ fs n, payloadOfToken token = some (Json.obj fs) → lookupField fs "exp" = some (Json.num n) →
      n ≠ 0 → (isTokenExpired now token = true ↔ now ≥ (n - 30) * 1000)) := by
  refine ⟨?_, ?_, ?_, ?_⟩
  · intro hp
    rw [isTokenExpired_eq, hp]
  · intro fs hp hlk
    rw [isTokenExpired_eq, hp]
    simp only [jsGetField]
    rw [hlk]
  · intro fs hp hlk
    rw [isTokenExpired_eq, hp]
    simp only [jsGetField]
    rw [hlk]
    simp [jsTruthy]
  · intro fs n hp hlk hn
    rw [isTokenExpired_eq, hp]
    simp only [jsGetField]
    rw [hlk]
    simp [jsTruthy, jsToNumber, hn]

/-- Claim C7 witness: the token with payload `{"exp": 1000}` is expired at
`now_ms = 971000` (which is past the buffered expiry `970000`). -/
theorem c7_expiry_precheck_amended_witness :
    isTokenExpired 971000 "a.eyJleHAiOjEwMDB9.c" = true := by
  have h := (c7_expiry_precheck_amended 971000 "a.eyJleHAiOjEwMDB9.c").2.2.2
    [("exp", Json.num 1000)] 1000 rfl rfl (by decide)
  exact h.mpr (by decide)

/-- Claim C10: there is a token whose middle segment is valid base64url
JSON carrying a far-future `exp` claim (`99999999999`, past the year 2100 in
buffered milliseconds) but using the base64url-specific character `-`; the
decoder `atob` accepts only the standard base64 alphabet and throws on it,
so `isTokenExpired` classifies the token as expired at every clock value
through the fail-closed catch branch. -/
theorem c10_base64url_token_misclassified :
    ((splitOnDot "h.eyJleHAiOjk5OTk5OTk5OTk5LCJzIjoifn5-In0.s".data)[1]? =
      some "eyJleHAiOjk5OTk5OTk5OTk5LCJzIjoifn5-In0".data) ∧
    "eyJleHAiOjk5OTk5OTk5OTk5LCJzIjoifn5-In0".data.contains '-' = true ∧
    ((b64urlDecode "eyJleHAiOjk5OTk5OTk5OTk5LCJzIjoifn5-In0").bind jsonParse =
      some (Json.obj [("exp", Json.num 99999999999), ("s", Json.str "~~~")])) ∧
    ((99999999999 - 30) * 1000 : Int) > 4102444800000 ∧
    ∀ now : Int, isTokenExpired now "h.eyJleHAiOjk5OTk5OTk5OTk5LCJzIjoifn5-In0.s" = true :=
  ⟨rfl, rfl, rfl, by decide, fun _ => rfl⟩

/-! ## Interceptor claims -/

/-- Claim C2 counterexample: request 1 is queued behind the renewal
triggered by request 0, gets replayed without its `_retry` flag being set,
receives a second 401, and — instead of being surfaced as an error — itself
triggers a second renewal and is retried again: after the trace it has been
dispatched three times (two retries) and two `/auth/refresh` calls were
made. -/
theorem c2_counterexample :
    (run [Ev.http401 0, Ev.http401 1, Ev.refreshOk "u" "a1" "r1", Ev.http401 1,
          Ev.refreshOk "u" "a2" "r2"]
      { isRefreshing := false, pendingRequests := [], store := setAuth "u" "a0" "r0",
        refreshCalls := 0, refreshing := none,
        reqs := [{ url := "/datasets", retried := false, phase := .inFlight,
                   dispatches := 1, authz := some "a0" },
                 { url := "/models", retried := false, phase := .inFlight,
                   dispatches := 1, authz := some "a0" }] }).refreshCalls = 2 ∧
    (getReq (run [Ev.http401 0, Ev.http401 1, Ev.refreshOk "u" "a1" "r1", Ev.http401 1,
          Ev.refreshOk "u" "a2" "r2"]
      { isRefreshing := false, pendingRequests := [], store := setAuth "u" "a0" "r0",
        refreshCalls := 0, refreshing := none,
        reqs := [{ url := "/datasets", retried := false, phase := .inFlight,
                   dispatches := 1, authz := some "a0" },
                 { url := "/models", retried := false, phase := .inFlight,
                   dispatches := 1, authz := some "a0" }] }).reqs 1).dispatches = 3 := by
  decide

/-- Claim C2 (amended): the at-most-once-retry guard is the `_retry` flag,
and it protects exactly the requests that carry it (in particular the
request that triggered a renewal): a 401 on a request already marked
`_retry` is surfaced to its caller as a passthrough error — it is not
enqueued, triggers no refresh call, and changes no coordinator or store
state. Queued waiters are replayed without `_retry` being set, so they are
not covered by this guard (see the counterexample). -/
theorem c2_retried_passthrough (s : Sys) (i : Nat)
    (hlen : i < s.reqs.length) (hph : (getReq s.reqs i).phase = .inFlight)
    (hret : (getReq s.reqs i).retried = true) :
    stepEv (Ev.http401 i) s = { s with reqs := modifyReq (settleErr .passthrough) i s.reqs } ∧
    (getReq (stepEv (Ev.http401 i) s).reqs i).phase = .doneErr .passthrough ∧
    (stepEv (Ev.http401 i) s).pendingRequests = s.pendingRequests ∧
    (stepEv (Ev.http401 i) s).refreshCalls = s.refreshCalls ∧
    (stepEv (Ev.http401 i) s).isRefreshing = s.isRefreshing ∧
    (stepEv (Ev.http401 i) s).store = s.store := by
  have hstep : stepEv (Ev.http401 i) s =
      { s with reqs := modifyReq (settleErr .passthrough) i s.reqs } := by
    show on401 i s = _
    unfold on401
    rw [if_pos ⟨hlen, hph⟩]
    rw [hret]
    rfl
  refine ⟨hstep, ?_, by rw [hstep], by rw [hstep], by rw [hstep], by rw [hstep]⟩
  rw [hstep]
  show (getReq (modifyReq (settleErr .passthrough) i s.reqs) i).phase = _
  rw [getReq_modifyReq_self _ i s.reqs hlen]
  rfl

/-- Claim C2 witness: a retried request in flight receives a second 401 and
is settled as a passthrough error while nothing else changes. -/
theorem c2_retried_passthrough_witness :
    stepEv (Ev.http401 0)
      { isRefreshing := false, pendingRequests := [], store := setAuth "u" "a" "r",
        refreshCalls := 1, refreshing := none,
        reqs := [{ url := "/datasets", retried := true, phase := .inFlight,
                   dispatches := 2, authz := some "a" }] } =
      { isRefreshing := false, pendingRequests := [], store := setAuth "u" "a" "r",
        refreshCalls := 1, refreshing := none,
        reqs := [{ url := "/datasets", retried := true, phase := .doneErr .passthrough,
                   dispatches := 2, authz := some "a" }] } := by
  have h := (c2_retried_passthrough
    { isRefreshing := false, pendingRequests := [], store := setAuth "u" "a" "r",
      refreshCalls := 1, refreshing := none,
      reqs := [{ url := "/datasets", retried := true, phase := .inFlight,
                 dispatches := 2, authz := some "a" }] } 0
    (by decide) (by decide) (by decide)).1
  rw [h]
  decide

/-- Claim C3: a 401 intercepted while no renewal is in flight and no
refresh token is stored is rejected immediately with the no-refresh-token
error; no `/auth/refresh` call is made and, in every well-formed state, the
session store and the coordinator's `{state, queue}` pair are unchanged. -/
theorem c3_no_refresh_token_rejected (s : Sys) (i : Nat)
    (hwf : WF s)
    (hlen : i < s.reqs.length) (hph : (getReq s.reqs i).phase = .inFlight)
    (hret : (getReq s.reqs i).retried = false)
    (hex : isExemptUrl (getReq s.reqs i).url = false)
    (hidle : s.isRefreshing = false)
    (htok : s.store.refreshToken = none) :
    (getReq (stepEv (Ev.http401 i) s).reqs i).phase = .doneErr .noRefreshToken ∧
    (stepEv (Ev.http401 i) s).refreshCalls = s.refreshCalls ∧
    (stepEv (Ev.http401 i) s).store = s.store ∧
    (stepEv (Ev.http401 i) s).pendingRequests = s.pendingRequests ∧
    (stepEv (Ev.http401 i) s).isRefreshing = s.isRefreshing ∧
    (stepEv (Ev.http401 i) s).refreshing = s.refreshing := by
  obtain ⟨h1, h2, h3, h4, h5, h6⟩ := hwf
  have hpend : s.pendingRequests = [] := by
    rcases h2 with hp | hp
    · exact hp
    · rw [hidle] at hp; exact absurd hp (by simp)
  have hrefn : s.refreshing = none := by
    rw [hidle] at h1
    cases hr2 : s.refreshing with
    | none => rfl
    | some t => rw [hr2] at h1; simp at h1
  have hstore : s.store = emptyAuth := by
    rcases h6 with hs | hs
    · exact hs
    · exact absurd htok hs.2.2.1
  have hstep : stepEv (Ev.http401 i) s =
      { s with
        reqs := modifyReq (fun q => { q with retried := true, phase := .doneErr .noRefreshToken })
          i (modifyAll (settleErr .noRefreshToken) s.pendingRequests s.reqs),
        pendingRequests := [],
        store := emptyAuth,
        isRefreshing := false,
        refreshing := none } := by
    show on401 i s = _
    unfold on401
    rw [if_pos ⟨hlen, hph⟩]
    simp only [hret, hex, hidle, htok, Bool.false_or]
    rfl
  rw [hstep]
  refine ⟨?_, rfl, hstore.symm, hpend.symm, hidle.symm, hrefn.symm⟩
  show (getReq (modifyReq _ i (modifyAll (settleErr .noRefreshToken) s.pendingRequests s.reqs)) i).phase = _
  rw [getReq_modifyReq_self _ i _ (by rw [length_modifyAll]; exact hlen)]

/-- Claim C3 witness: an anonymous session (empty store) receiving a 401 on
a data request rejects it with the no-refresh-token error and leaves every
piece of state unchanged. -/
theorem c3_no_refresh_token_rejected_witness :
    (getReq (stepEv (Ev.http401 0)
      { isRefreshing := false, pendingRequests := [], store := emptyAuth,
        refreshCalls := 0, refreshing := none,
        reqs := [{ url := "/datasets", retried := false, phase := .inFlight,
                   dispatches := 1, authz := none }] }).reqs 0).phase =
      .doneErr .noRefreshToken ∧
    (stepEv (Ev.http401 0)
      { isRefreshing := false, pendingRequests := [], store := emptyAuth,
        refreshCalls := 0, refreshing := none,
        reqs := [{ url := "/datasets", retried := false, phase := .inFlight,
                   dispatches := 1, authz := none }] }).refreshCalls = 0 := by
  have h := c3_no_refresh_token_rejected
    { isRefreshing := false, pendingRequests := [], store := emptyAuth,
      refreshCalls := 0, refreshing := none,
      reqs := [{ url := "/datasets", retried := false, phase := .inFlight,
                 dispatches := 1, authz := none }] } 0
    (by decide) (by decide) (by decide) (by decide) (by decide) (by decide) (by decide)
  exact ⟨h.1, h.2.1⟩

/-- Claim C4 counterexample: `/auth/register` is not in the interceptor's
exemption list (`url.includes("/auth/refresh") || url.includes("/auth/login")`),
so a 401 on a register request with a refresh token stored and the
coordinator idle does trigger a renewal: a `/auth/refresh` call is issued
and the coordinator moves to Refreshing — contradicting the claim that all
three auth endpoints pass straight through. -/
theorem c4_counterexample :
    isExemptUrl "/auth/register" = false ∧
    (stepEv (Ev.http401 0)
      { isRefreshing := false, pendingRequests := [], store := setAuth "u" "a" "r",
        refreshCalls := 0, refreshing := none,
        reqs := [{ url := "/auth/register", retried := false, phase := .inFlight,
                   dispatches := 1, authz := none }] }).refreshCalls = 1 ∧
    (stepEv (Ev.http401 0)
      { isRefreshing := false, pendingRequests := [], store := setAuth "u" "a" "r",
        refreshCalls := 0, refreshing := none,
        reqs := [{ url := "/auth/register", retried := false, phase := .inFlight,
                   dispatches := 1, authz := none }] }).isRefreshing = true := by
  decide

/-- Claim C4 (amended): only `/auth/refresh` and `/auth/login` are exempt
from interception: a 401 on a request whose URL contains either of them is
passed straight through to the caller — no refresh call, no enqueue, no
coordinator or store state change. `/auth/register` is not exempt and does
enter the renewal path (see the counterexample). -/
theorem c4_exempt_urls_passthrough (s : Sys) (i : Nat)
    (hlen : i < s.reqs.length) (hph : (getReq s.reqs i).phase = .inFlight)
    (hex : isExemptUrl (getReq s.reqs i).url = true) :
    (isExemptUrl "/auth/refresh" = true ∧ isExemptUrl "/auth/login" = true ∧
      isExemptUrl "/auth/register" = false) ∧
    stepEv (Ev.http401 i) s = { s with reqs := modifyReq (settleErr .passthrough) i s.reqs } ∧
    (getReq (stepEv (Ev.http401 i) s).reqs i).phase = .doneErr .passthrough ∧
    (stepEv (Ev.http401 i) s).pendingRequests = s.pendingRequests ∧
    (stepEv (Ev.http401 i) s).refreshCalls = s.refreshCalls ∧
    (stepEv (Ev.http401 i) s).isRefreshing = s.isRefreshing ∧
    (stepEv (Ev.http401 i) s).store = s.store := by
  have hstep : stepEv (Ev.http401 i) s =
      { s with reqs := modifyReq (settleErr .passthrough) i s.reqs } := by
    show on401 i s = _
    unfold on401
    rw [if_pos ⟨hlen, hph⟩]
    rw [hex]
    simp only [Bool.or_true]
    rfl
  refine ⟨⟨by decide, by decide, by decide⟩, hstep, ?_, by rw [hstep], by rw [hstep],
    by rw [hstep], by rw [hstep]⟩
  rw [hstep]
  show (getReq (modifyReq (settleErr .passthrough) i s.reqs) i).phase = _
  rw [getReq_modifyReq_self _ i s.reqs hlen]
  rfl

/-- Claim C4 witness: a 401 on a `/auth/login` request passes straight
through as an error while the coordinator stays idle. -/
theorem c4_exempt_urls_passthrough_witness :
    stepEv (Ev.http401 0)
      { isRefreshing := false, pendingRequests := [], store := emptyAuth,
        refreshCalls := 0, refreshing := none,
        reqs := [{ url := "/auth/login", retried := false, phase := .inFlight,
                   dispatches := 1, authz := none }] } =
      { isRefreshing := false, pendingRequests := [], store := emptyAuth,
        refreshCalls := 0, refreshing := none,
        reqs := [{ url := "/auth/login", retried := false, phase := .doneErr .passthrough,
                   dispatches := 1, authz := none }] } := by
  have h := (c4_exempt_urls_passthrough
    { isRefreshing := false, pendingRequests := [], store := emptyAuth,
      refreshCalls := 0, refreshing := none,
      reqs := [{ url := "/auth/login", retried := false, phase := .inFlight,
                 dispatches := 1, authz := none }] } 0
    (by decide) (by decide) (by decide)).2.1
  rw [h]
  decide

/-- Claim C1: for any burst of N ≥ 1 distinct interceptable requests (in
flight, unretried, non-exempt URLs) that all receive 401 while the
coordinator is idle and a refresh token is stored, exactly one
`/auth/refresh` call is issued — the first 401 flips `isRefreshing`
synchronously and every later 401 is enqueued as a pending waiter — and
after the renewal succeeds every one of the N requests has been re-dispatched
exactly once with the refreshed access token. -/
theorem c1_single_renewal_per_burst (s : Sys) (i0 : Nat) (rest : List Nat) (u a r : String)
    (hwf : WF s) (hidle : s.isRefreshing = false)
    (htok : jsStrFalsy s.store.refreshToken = false)
    (hnd : (i0 :: rest).Nodup)
    (hall : ∀ i ∈ i0 :: rest, i < s.reqs.length ∧ (getReq s.reqs i).phase = .inFlight ∧
      (getReq s.reqs i).retried = false ∧ isExemptUrl (getReq s.reqs i).url = false) :
    (run ((i0 :: rest).map Ev.http401 ++ [Ev.refreshOk u a r]) s).refreshCalls =
      s.refreshCalls + 1 ∧
    (run ((i0 :: rest).map Ev.http401 ++ [Ev.refreshOk u a r]) s).isRefreshing = false ∧
    (run ((i0 :: rest).map Ev.http401 ++ [Ev.refreshOk u a r]) s).pendingRequests = [] ∧
    ∀ i ∈ i0 :: rest,
      (getReq (run ((i0 :: rest).map Ev.http401 ++ [Ev.refreshOk u a r]) s).reqs i).phase =
        .inFlight ∧
      (getReq (run ((i0 :: rest).map Ev.http401 ++ [Ev.refreshOk u a r]) s).reqs i).authz =
        some a ∧
      (getReq (run ((i0 :: rest).map Ev.http401 ++ [Ev.refreshOk u a r]) s).reqs i).dispatches =
        (getReq s.reqs i).dispatches + 1 := by
  obtain ⟨h1, h2, h3, h4, h5, h6⟩ := hwf
  have hpend : s.pendingRequests = [] := by
    rcases h2 with hp | hp
    · exact hp
    · rw [hidle] at hp; exact absurd hp (by simp)
  obtain ⟨hi0l, hi0p, hi0r, hi0e⟩ := hall i0 (List.mem_cons_self i0 rest)
  have hi0notin : i0 ∉ rest := (List.nodup_cons.mp hnd).1
  have hndrest : rest.Nodup := (List.nodup_cons.mp hnd).2
  have hcond1 : ∀ i ∈ rest,
      i < (modifyReq (fun q => { q with retried := true, phase := Phase.awaitingRefresh }) i0 s.reqs).length ∧
      (getReq (modifyReq (fun q => { q with retried := true, phase := Phase.awaitingRefresh }) i0 s.reqs) i).phase = .inFlight ∧
      (getReq (modifyReq (fun q => { q with retried := true, phase := Phase.awaitingRefresh }) i0 s.reqs) i).retried = false ∧
      isExemptUrl (getReq (modifyReq (fun q => { q with retried := true, phase := Phase.awaitingRefresh }) i0 s.reqs) i).url = false := by
    intro i hi
    have hii0 : i ≠ i0 := fun h => hi0notin (h ▸ hi)
    obtain ⟨hil, hip, hir, hie⟩ := hall i (List.mem_cons_of_mem i0 hi)
    rw [length_modifyReq, getReq_modifyReq_ne _ i0 i s.reqs hii0]
    exact ⟨hil, hip, hir, hie⟩
  have hfull : run ((i0 :: rest).map Ev.http401 ++ [Ev.refreshOk u a r]) s =
      { isRefreshing := false, pendingRequests := [], store := setAuth u a r,
        refreshCalls := s.refreshCalls + 1, refreshing := none,
        reqs := modifyReq (resolveWaiter a) i0 (modifyAll (resolveWaiter a)
          (s.pendingRequests ++ rest) (modifyAll markQueued rest
            (modifyReq (fun q => { q with retried := true, phase := Phase.awaitingRefresh })
              i0 s.reqs))) } := by
    rw [run_append, List.map_cons, run_cons]
    show run [Ev.refreshOk u a r] (run (List.map Ev.http401 rest) (on401 i0 s)) = _
    rw [on401_trigger s i0 hi0l hi0p hi0r hi0e hidle htok]
    rw [run_enqueue_all rest]
    · rfl
    · rfl
    · exact hcond1
    · exact hndrest
  rw [hfull, hpend, List.nil_append]
  refine ⟨rfl, rfl, rfl, ?_⟩
  intro i hi
  rcases List.mem_cons.mp hi with hieq | hirest
  · subst hieq
    rw [getReq_modifyReq_self _ i _
      (by rw [length_modifyAll, length_modifyAll, length_modifyReq]; exact hi0l)]
    rw [getReq_modifyAll_not_mem _ rest _ i hi0notin]
    rw [getReq_modifyAll_not_mem _ rest _ i hi0notin]
    rw [getReq_modifyReq_self _ i s.reqs hi0l]
    exact ⟨rfl, rfl, rfl⟩
  · have hii0 : i ≠ i0 := fun h => hi0notin (h ▸ hirest)
    rw [getReq_modifyReq_ne _ i0 i _ hii0]
    obtain ⟨hil, hip, hir, hie⟩ := hall i (List.mem_cons_of_mem i0 hirest)
    rw [getReq_modifyAll_mem _ rest _ i hirest hndrest
      (by rw [length_modifyAll, length_modifyReq]; exact hil)]
    rw [getReq_modifyAll_mem markQueued rest _ i hirest hndrest
      (by rw [length_modifyReq]; exact hil)]
    rw [getReq_modifyReq_ne _ i0 i s.reqs hii0]
    exact ⟨rfl, rfl, rfl⟩

/-- Claim C1 witness: two requests 401 while idle with a stored refresh
token; exactly one refresh call is made and both are retried with the new
access token. -/
theorem c1_single_renewal_per_burst_witness :
    (run ((0 :: [1]).map Ev.http401 ++ [Ev.refreshOk "u" "a1" "r1"])
      { isRefreshing := false, pendingRequests := [], store := setAuth "u" "a0" "r0",
        refreshCalls := 0, refreshing := none,
        reqs := [{ url := "/datasets", retried := false, phase := .inFlight,
                   dispatches := 1, authz := some "a0" },
                 { url := "/models", retried := false, phase := .inFlight,
                   dispatches := 1, authz := some "a0" }] }).refreshCalls = 1 ∧
    (getReq (run ((0 :: [1]).map Ev.http401 ++ [Ev.refreshOk "u" "a1" "r1"])
      { isRefreshing := false, pendingRequests := [], store := setAuth "u" "a0" "r0",
        refreshCalls := 0, refreshing := none,
        reqs := [{ url := "/datasets", retried := false, phase := .inFlight,
                   dispatches := 1, authz := some "a0" },
                 { url := "/models", retried := false, phase := .inFlight,
                   dispatches := 1, authz := some "a0" }] }).reqs 1).authz = some "a1" := by
  have h := c1_single_renewal_per_burst
    { isRefreshing := false, pendingRequests := [], store := setAuth "u" "a0" "r0",
      refreshCalls := 0, refreshing := none,
      reqs := [{ url := "/datasets", retried := false, phase := .inFlight,
                 dispatches := 1, authz := some "a0" },
               { url := "/models", retried := false, phase := .inFlight,
                 dispatches := 1, authz := some "a0" }] }
    0 [1] "u" "a1" "r1" (by decide) (by decide) (by decide) (by decide) (by decide)
  exact ⟨h.1, (h.2.2.2 1 (by decide)).2.1⟩

/-- Claim C5: coordinator state-machine invariant — well-formedness (which
includes "the waiter queue is non-empty only while refreshing" and the
store invariant) is preserved by every event; in every well-formed state a
non-empty queue implies the Refreshing state; and when the outstanding
renewal settles the queue is fully drained in the same turn: on success
every waiter is resolved and re-dispatched with the new access token, on
failure every waiter is rejected with the renewal failure, `logout()`
empties the store, and the triggering caller is rejected too. -/
theorem c5_coordinator_queue_invariant :
    (∀ (e : Ev) (s : Sys), WF s → WF (stepEv e s)) ∧
    (∀ s : Sys, WF s → s.pendingRequests ≠ [] → s.isRefreshing = true) ∧
    (∀ (s : Sys) (t : Nat) (u a r : String), WF s → s.refreshing = some t →
      (stepEv (Ev.refreshOk u a r) s).pendingRequests = [] ∧
      (stepEv (Ev.refreshOk u a r) s).isRefreshing = false ∧
      ∀ j ∈ s.pendingRequests,
        (getReq (stepEv (Ev.refreshOk u a r) s).reqs j).phase = .inFlight ∧
        (getReq (stepEv (Ev.refreshOk u a r) s).reqs j).authz = some a) ∧
    (∀ (s : Sys) (t : Nat), WF s → s.refreshing = some t →
      (stepEv Ev.refreshErr s).pendingRequests = [] ∧
      (stepEv Ev.refreshErr s).isRefreshing = false ∧
      (stepEv Ev.refreshErr s).store = emptyAuth ∧
      (∀ j ∈ s.pendingRequests,
        (getReq (stepEv Ev.refreshErr s).reqs j).phase = .doneErr .renewalFailed) ∧
      (getReq (stepEv Ev.refreshErr s).reqs t).phase = .doneErr .renewalFailed) := by
  refine ⟨fun e s h => wf_step e s h, ?_, ?_, ?_⟩
  · intro s hwf hne
    rcases hwf.2.1 with hp | hp
    · exact absurd hp hne
    · exact hp
  · intro s t u a r hwf ht
    have h := onRefreshOk_drain s t u a r hwf ht
    exact ⟨h.1, h.2.1, fun j hj =>
      ⟨(h.2.2.2.2.1 j hj).1, (h.2.2.2.2.1 j hj).2.1⟩⟩
  · intro s t hwf ht
    have h := onRefreshErr_drain s t hwf ht
    exact ⟨h.1, h.2.1, h.2.2.2.1, h.2.2.2.2.1, h.2.2.2.2.2⟩

/-- Claim C5 witness: in a well-formed Refreshing state with one queued
waiter, a failing renewal empties the store and rejects the waiter. -/
theorem c5_coordinator_queue_invariant_witness :
    (stepEv Ev.refreshErr
      { isRefreshing := true, pendingRequests := [1], store := setAuth "u" "a" "r",
        refreshCalls := 1, refreshing := some 0,
        reqs := [{ url := "/datasets", retried := true, phase := .awaitingRefresh,
                   dispatches := 1, authz := some "a" },
                 { url := "/models", retried := false, phase := .queued,
                   dispatches := 1, authz := some "a" }] }).store = emptyAuth ∧
    (getReq (stepEv Ev.refreshErr
      { isRefreshing := true, pendingRequests := [1], store := setAuth "u" "a" "r",
        refreshCalls := 1, refreshing := some 0,
        reqs := [{ url := "/datasets", retried := true, phase := .awaitingRefresh,
                   dispatches := 1, authz := some "a" },
                 { url := "/models", retried := false, phase := .queued,
                   dispatches := 1, authz := some "a" }] }).reqs 1).phase =
      .doneErr .renewalFailed := by
  have h := c5_coordinator_queue_invariant.2.2.2
    { isRefreshing := true, pendingRequests := [1], store := setAuth "u" "a" "r",
      refreshCalls := 1, refreshing := some 0,
      reqs := [{ url := "/datasets", retried := true, phase := .awaitingRefresh,
                 dispatches := 1, authz := some "a" },
               { url := "/models", retried := false, phase := .queued,
                 dispatches := 1, authz := some "a" }] }
    0 (by decide) (by decide)
  exact ⟨h.2.2.1, h.2.2.2.1 1 (by decide)⟩

end MMM
